import Mathlib

/-!
Verification development for the meet-scribe-chat recording and submission
front end.  JavaScript strings are modelled as lists of characters, blobs as
lists of bytes with a mime-type tag, and each React hook or handler as a pure
state-transition function translated from the corresponding source file.
-/

/-- JavaScript strings, modelled as lists of characters. -/
abbrev JStr := List Char

/-- Model of the JavaScript whitespace class (ASCII part), used both by
`String.prototype.trim` and by the regex class `\s` in the email pattern. -/
def jsWs (c : Char) : Bool :=
  c == ' ' || c == '\t' || c == '\n' || c == '\r' || c == '\x0B' || c == '\x0C'

/-- Model of `String.prototype.toLowerCase` on a single character
(ASCII range: code points 65–90 map to 97–122, all else unchanged). -/
def lowerChar (c : Char) : Char :=
  if 65 ≤ c.toNat ∧ c.toNat ≤ 90 then Char.ofNat (c.toNat + 32) else c

/-- Model of `String.prototype.toLowerCase`. -/
def jsToLower (s : JStr) : JStr := s.map lowerChar

/-- Model of `String.prototype.trim`: drop leading whitespace, then drop
trailing whitespace (implemented by reversing). -/
def jsTrim (s : JStr) : JStr :=
  ((s.dropWhile jsWs).reverse.dropWhile jsWs).reverse

/- Auxiliary facts about the 26 lower-case images, established by bounded
evaluation over the relevant code points. -/
theorem lowerChar_image_facts :
    ∀ n, n < 91 → 65 ≤ n →
      (Char.ofNat (n + 32)).toNat = n + 32 ∧ jsWs (Char.ofNat (n + 32)) = false := by
  decide

theorem jsWs_eq_false_of_upper (c : Char) (h1 : 65 ≤ c.toNat) (h2 : c.toNat ≤ 90) :
    jsWs c = false := by
  simp only [jsWs, Bool.or_eq_false_iff, beq_eq_false_iff_ne, ne_eq]
  refine ⟨⟨⟨⟨⟨?_, ?_⟩, ?_⟩, ?_⟩, ?_⟩, ?_⟩ <;>
    · rintro rfl
      revert h1 h2
      decide

theorem lowerChar_idem (c : Char) : lowerChar (lowerChar c) = lowerChar c := by
  by_cases h : 65 ≤ c.toNat ∧ c.toNat ≤ 90
  · have hb := lowerChar_image_facts c.toNat (by omega) h.1
    simp only [lowerChar, h, if_true]
    have : ¬ (65 ≤ (Char.ofNat (c.toNat + 32)).toNat ∧
        (Char.ofNat (c.toNat + 32)).toNat ≤ 90) := by
      rw [hb.1]; omega
    simp [this]
  · simp [lowerChar, h]

theorem jsWs_lowerChar (c : Char) : jsWs (lowerChar c) = jsWs c := by
  by_cases h : 65 ≤ c.toNat ∧ c.toNat ≤ 90
  · have hb := lowerChar_image_facts c.toNat (by omega) h.1
    unfold lowerChar
    rw [if_pos h, hb.2, jsWs_eq_false_of_upper c h.1 h.2]
  · simp [lowerChar, h]

theorem jsToLower_idem (s : JStr) : jsToLower (jsToLower s) = jsToLower s := by
  simp only [jsToLower, List.map_map]
  exact List.map_congr_left (fun c _ => lowerChar_idem c)

theorem dropWhile_self_idem (p : Char → Bool) (l : List Char) :
    (l.dropWhile p).dropWhile p = l.dropWhile p := by
  induction l with
  | nil => rfl
  | cons a l ih =>
    by_cases h : p a
    · simp [List.dropWhile_cons, h, ih]
    · simp [List.dropWhile_cons, h]

theorem length_dropWhile_le_length (p : Char → Bool) (l : List Char) :
    (l.dropWhile p).length ≤ l.length := by
  induction l with
  | nil => exact Nat.le_refl 0
  | cons a l ih =>
    by_cases h : p a
    · rw [List.dropWhile_cons_of_pos h]
      exact Nat.le_trans ih (by simp)
    · rw [List.dropWhile_cons_of_neg h]

theorem dropWhile_eq_self_of_isPrefix (p : Char → Bool) {l t : List Char}
    (ht : t <+: l) (hl : l.dropWhile p = l) : t.dropWhile p = t := by
  cases t with
  | nil => rfl
  | cons a t' =>
    obtain ⟨r, hr⟩ := ht
    subst hr
    rw [List.cons_append] at hl
    by_cases h : p a
    · exfalso
      rw [List.dropWhile_cons_of_pos h] at hl
      have hlen := congrArg List.length hl
      have hle := length_dropWhile_le_length p (t' ++ r)
      simp only [List.length_cons] at hlen
      omega
    · simp [List.dropWhile_cons, h]

theorem dropWhile_suffix_self (p : Char → Bool) (l : List Char) :
    l.dropWhile p <:+ l := by
  induction l with
  | nil => exact ⟨[], rfl⟩
  | cons a l ih =>
    by_cases h : p a
    · rw [List.dropWhile_cons_of_pos h]
      obtain ⟨t, ht⟩ := ih
      exact ⟨a :: t, by simp [ht]⟩
    · rw [List.dropWhile_cons_of_neg h]

theorem jsTrim_isPrefix_dropWhile (l : List Char) :
    jsTrim l <+: (l.dropWhile jsWs) := by
  obtain ⟨t, ht⟩ := dropWhile_suffix_self jsWs (l.dropWhile jsWs).reverse
  refine ⟨t.reverse, ?_⟩
  have := congrArg List.reverse ht
  simpa [jsTrim] using this

theorem jsTrim_idem (l : List Char) : jsTrim (jsTrim l) = jsTrim l := by
  have hA : (l.dropWhile jsWs).dropWhile jsWs = l.dropWhile jsWs :=
    dropWhile_self_idem jsWs l
  have hB : (jsTrim l).dropWhile jsWs = jsTrim l :=
    dropWhile_eq_self_of_isPrefix jsWs (jsTrim_isPrefix_dropWhile l) hA
  show (((jsTrim l).dropWhile jsWs).reverse.dropWhile jsWs).reverse = jsTrim l
  rw [hB]
  show ((((l.dropWhile jsWs).reverse.dropWhile jsWs).reverse).reverse.dropWhile jsWs).reverse
      = jsTrim l
  rw [List.reverse_reverse, dropWhile_self_idem]
  rfl

theorem dropWhile_map_lowerChar (l : List Char) :
    (l.map lowerChar).dropWhile jsWs = (l.dropWhile jsWs).map lowerChar := by
  induction l with
  | nil => rfl
  | cons a l ih =>
    by_cases h : jsWs a
    · have h2 : jsWs (lowerChar a) = true := by rw [jsWs_lowerChar]; exact h
      simp [List.dropWhile_cons, h, h2, ih]
    · have h2 : jsWs (lowerChar a) = false := by rw [jsWs_lowerChar]; simpa using h
      simp [List.dropWhile_cons, h, h2]

theorem jsTrim_jsToLower (l : List Char) :
    jsTrim (jsToLower l) = jsToLower (jsTrim l) := by
  simp only [jsTrim, jsToLower]
  rw [dropWhile_map_lowerChar, ← List.map_reverse, dropWhile_map_lowerChar,
    ← List.map_reverse]

/-!
## EmailChipInput (src/unnamed/part_006)

The participant token field.  `addEmail` and `removeEmail` are translated from
the component's handlers; the component state carries the email list (lifted
via the `onChange` prop), the text box value and the inline error message.
-/

/-- A character admitted by the regex class `[^\s@]`. -/
def okCh (c : Char) : Bool := !(jsWs c) && c != '@'

/-- Model of `/^[^\s@]+@[^\s@]+\.[^\s@]+$/.test cs`: there is a split
`cs = A ++ [at] ++ B ++ [dot] ++ C` with `A`, `B`, `C` non-empty and every
character of `A`, `B`, `C` in the class `[^\s@]`.  Expressed through the
positions `i` of the (necessarily unique) at sign and `j` of the dot. -/
def matchesEmailRegex (cs : JStr) : Bool :=
  (List.range cs.length).any (fun i =>
    (List.range cs.length).any (fun j =>
      decide (1 ≤ i) && decide (i + 2 ≤ j) && decide (j + 2 ≤ cs.length) &&
      (cs.getD i ' ' == '@') && (cs.getD j ' ' == '.') &&
      ((List.range cs.length).all (fun k => k == i || okCh (cs.getD k ' ')))))

/-- Function `isValidEmail` from the component (the regex is applied to the trimmed
input). -/
def isValidEmail (email : JStr) : Bool := matchesEmailRegex (jsTrim email)

/-- State of the chip input: the email list plus the text box and error. -/
structure ChipState where
  emails : List JStr
  inputValue : JStr
  error : JStr
deriving DecidableEq

/-- The empty chip input. -/
def chipInit : ChipState := { emails := [], inputValue := [], error := [] }

/-- Function `addEmail` from the component: trim and lower-case the input, drop empty
input, reject invalid input, reject a duplicate, otherwise append. -/
def addEmail (s : ChipState) (email : JStr) : ChipState :=
  let trimmedEmail := jsToLower (jsTrim email)
  if trimmedEmail.isEmpty then s
  else if !(isValidEmail trimmedEmail) then
    { s with error := ("Please enter a valid email address").data }
  else if s.emails.contains trimmedEmail then
    { s with error := ("This email has already been added").data }
  else
    { emails := s.emails ++ [trimmedEmail], inputValue := [], error := [] }

/-- Function `removeEmail` from the component: keep the entries that differ (exact
JavaScript `!==` comparison) from the argument. -/
def removeEmail (s : ChipState) (emailToRemove : JStr) : ChipState :=
  { s with emails := s.emails.filter (fun e => e != emailToRemove) }

/-- Well-formedness of a stored participant entry: trimmed, fully
lower-cased, and accepted by the email pattern. -/
def wfEmail (e : JStr) : Prop :=
  jsTrim e = e ∧ jsToLower e = e ∧ matchesEmailRegex e = true

theorem isValidEmail_isEmpty_false {t : JStr} (hv : isValidEmail t = true) :
    t.isEmpty = false := by
  cases t with
  | nil => exfalso; revert hv; decide
  | cons a t => rfl

theorem wfEmail_of_guard (v : JStr)
    (hv : isValidEmail (jsToLower (jsTrim v)) = true) :
    wfEmail (jsToLower (jsTrim v)) := by
  have htrim : jsTrim (jsToLower (jsTrim v)) = jsToLower (jsTrim v) := by
    rw [jsTrim_jsToLower, jsTrim_idem]
  refine ⟨htrim, jsToLower_idem (jsTrim v), ?_⟩
  have h2 := hv
  unfold isValidEmail at h2
  rwa [htrim] at h2

theorem addEmail_emails_cases (s : ChipState) (v : JStr) :
    (addEmail s v).emails = s.emails ∨
    ((addEmail s v).emails = s.emails ++ [jsToLower (jsTrim v)] ∧
      isValidEmail (jsToLower (jsTrim v)) = true) := by
  by_cases h1 : (jsToLower (jsTrim v)).isEmpty
  · left; simp [addEmail, h1]
  · by_cases h2 : isValidEmail (jsToLower (jsTrim v))
    · by_cases h3 : s.emails.contains (jsToLower (jsTrim v))
      · have h3m : jsToLower (jsTrim v) ∈ s.emails := by simpa using h3
        left; simp [addEmail, h1, h2, h3m]
      · have h3m : jsToLower (jsTrim v) ∉ s.emails := by simpa using h3
        right
        constructor
        · simp [addEmail, h1, h2, h3m]
        · exact h2
    · left; simp [addEmail, h1, h2]

/-- C10: well-formedness of the participant entries (trimmed, lower-cased,
matching the email pattern) is preserved by `addEmail` and `removeEmail`;
moreover `addEmail` never stores input as typed: when it appends, the stored
entry is the trimmed, lower-cased form of the input. -/
theorem emails_wf_invariant (s : ChipState) (v : JStr)
    (h : ∀ e ∈ s.emails, wfEmail e) :
    (∀ e ∈ (addEmail s v).emails, wfEmail e) ∧
    (∀ e ∈ (removeEmail s v).emails, wfEmail e) ∧
    ((addEmail s v).emails = s.emails ∨
      (addEmail s v).emails = s.emails ++ [jsToLower (jsTrim v)]) := by
  have hc := addEmail_emails_cases s v
  refine ⟨?_, ?_, ?_⟩
  · rcases hc with hc | ⟨hc, hv⟩
    · rw [hc]; exact h
    · rw [hc]
      intro e he
      rcases List.mem_append.mp he with he | he
      · exact h e he
      · rcases List.mem_singleton.mp he with rfl
        exact wfEmail_of_guard v hv
  · intro e he
    have : e ∈ s.emails := List.mem_of_mem_filter he
    exact h e this
  · rcases hc with hc | ⟨hc, _⟩
    · exact Or.inl hc
    · exact Or.inr hc

/-- Closed instance of `emails_wf_invariant`: adding the upper-case input
stores its lower-cased form, and preserves well-formedness. -/
theorem emails_wf_invariant_witness :
    (∀ e ∈ chipInit.emails, wfEmail e) ∧
    (∀ e ∈ (addEmail chipInit (("Foo@Bar.Com").data)).emails, wfEmail e) ∧
    (addEmail chipInit (("Foo@Bar.Com").data)).emails = [("foo@bar.com").data] := by
  have h0 : ∀ e ∈ chipInit.emails, wfEmail e := by
    intro e he
    exact absurd he (by simp [chipInit])
  refine ⟨h0, (emails_wf_invariant chipInit (("Foo@Bar.Com").data) h0).1, by decide⟩

/-- C7 counterexample: for the (non-email) string `notanemail`, two calls of
`addEmail` leave zero entries for it — not exactly one — and the second call
signals the invalid-address error, not the duplicate error. -/
theorem addEmail_twice_invalid_counterexample :
    ((addEmail (addEmail chipInit (("notanemail").data)) (("notanemail").data)).emails.count
        (jsToLower (jsTrim (("notanemail").data))) = 0) ∧
    ((addEmail (addEmail chipInit (("notanemail").data)) (("notanemail").data)).error
        = ("Please enter a valid email address").data) := by
  decide

/-- C7 (amended): for every string whose trimmed lower-cased form is a valid
email and is not yet stored, adding it and then adding any case variation of
it leaves exactly one entry (appended at the end, so insertion order is
preserved); the second call signals the duplicate error and leaves the list
unchanged. -/
theorem addEmail_twice_dedup (s : ChipState) (e e' : JStr)
    (hv : isValidEmail (jsToLower (jsTrim e)) = true)
    (hcase : jsToLower (jsTrim e') = jsToLower (jsTrim e))
    (hnew : jsToLower (jsTrim e) ∉ s.emails) :
    (addEmail s e).emails = s.emails ++ [jsToLower (jsTrim e)] ∧
    (addEmail (addEmail s e) e').emails = (addEmail s e).emails ∧
    (addEmail (addEmail s e) e').error = ("This email has already been added").data ∧
    (addEmail (addEmail s e) e').emails.count (jsToLower (jsTrim e)) = 1 := by
  have hne : (jsToLower (jsTrim e)).isEmpty = false := isValidEmail_isEmpty_false hv
  have h1 : addEmail s e
      = { emails := s.emails ++ [jsToLower (jsTrim e)], inputValue := [], error := [] } := by
    simp [addEmail, hne, hv, hnew]
  have hmem : jsToLower (jsTrim e) ∈ s.emails ++ [jsToLower (jsTrim e)] := by simp
  have h2 : addEmail (addEmail s e) e'
      = { addEmail s e with error := ("This email has already been added").data } := by
    rw [addEmail]
    rw [hcase, h1]
    simp [hne, hv, hmem]
  have hcount : (s.emails ++ [jsToLower (jsTrim e)]).count (jsToLower (jsTrim e)) = 1 := by
    rw [List.count_append, List.count_eq_zero.mpr hnew]
    simp
  refine ⟨h1 ▸ rfl, ?_, ?_, ?_⟩
  · rw [h2]
  · rw [h2]
  · rw [h2]
    show (addEmail s e).emails.count (jsToLower (jsTrim e)) = 1
    rw [h1]
    exact hcount

/-- Closed instance of `addEmail_twice_dedup` at the input `A@b.co` followed
by its case variation `a@B.CO`. -/
theorem addEmail_twice_dedup_witness :
    (isValidEmail (jsToLower (jsTrim (("A@b.co").data))) = true) ∧
    (jsToLower (jsTrim (("a@B.CO").data)) = jsToLower (jsTrim (("A@b.co").data))) ∧
    ((addEmail (addEmail chipInit (("A@b.co").data)) (("a@B.CO").data)).emails
        = [("a@b.co").data]) ∧
    ((addEmail (addEmail chipInit (("A@b.co").data)) (("a@B.CO").data)).emails.count
        (jsToLower (jsTrim (("A@b.co").data))) = 1) := by
  have hv : isValidEmail (jsToLower (jsTrim (("A@b.co").data))) = true := by decide
  have hcase : jsToLower (jsTrim (("a@B.CO").data)) = jsToLower (jsTrim (("A@b.co").data)) := by
    decide
  have hnew : jsToLower (jsTrim (("A@b.co").data)) ∉ chipInit.emails := by decide
  have h := addEmail_twice_dedup chipInit (("A@b.co").data) (("a@B.CO").data) hv hcase hnew
  refine ⟨hv, hcase, ?_, h.2.2.2⟩
  rw [h.2.1, h.1]
  decide

/-- C8 counterexample: with the single stored entry `a@b.co`, removing
`A@B.CO` — a case-insensitive match — leaves the entry in place, because the
code compares with the exact `!==` test. -/
theorem removeEmail_case_insensitive_counterexample :
    (jsToLower (("a@b.co").data) = jsToLower (("A@B.CO").data)) ∧
    ((removeEmail { emails := [("a@b.co").data], inputValue := [], error := [] }
        (("A@B.CO").data)).emails = [("a@b.co").data]) := by
  decide

/-- C8 (amended): `removeEmail value` removes exactly the entries that equal
`value` by the exact (case-sensitive) comparison, preserving the order of the
rest, and is a no-op when no exact match is present; a value differing only
in case from every entry therefore removes nothing. -/
theorem removeEmail_exact (s : ChipState) (v : JStr) :
    (v ∉ (removeEmail s v).emails) ∧
    (∀ e ∈ s.emails, e ≠ v → e ∈ (removeEmail s v).emails) ∧
    ((removeEmail s v).emails.Sublist s.emails) ∧
    (v ∉ s.emails → removeEmail s v = s) := by
  refine ⟨?_, ?_, ?_, ?_⟩
  · intro hmem
    rw [removeEmail] at hmem
    have := (List.mem_filter.mp hmem).2
    simp at this
  · intro e he hne
    rw [removeEmail]
    exact List.mem_filter.mpr ⟨he, by simpa using hne⟩
  · exact List.filter_sublist s.emails
  · intro hnm
    have : s.emails.filter (fun e => e != v) = s.emails := by
      rw [List.filter_eq_self]
      intro x hx
      simp only [bne_iff_ne, ne_eq, decide_eq_true_eq]
      rintro rfl
      exact hnm hx
    rw [removeEmail, this]

/-- Closed instance of `removeEmail_exact`: removing an absent value is a
no-op, and removing a present value deletes it. -/
theorem removeEmail_exact_witness :
    (("x@y.zz").data ∉ chipInit.emails) ∧
    (removeEmail chipInit (("x@y.zz").data) = chipInit) := by
  have h := removeEmail_exact chipInit (("x@y.zz").data)
  have hnm : ("x@y.zz").data ∉ chipInit.emails := by decide
  exact ⟨hnm, h.2.2.2 hnm⟩

/-!
## useMediaRecorder (src/unnamed/part_002)

The recording hook.  A `JSBlob` is a byte list with a mime-type tag.  The
session state carries the two React state cells (`isRecording`,
`recordingTime`, `error`), the refs (`mediaRecorderRef` as `hasRecorder` plus
the underlying recorder's paused flag and the liveness of its capture tracks,
`chunksRef` as `chunks`, `intervalRef` as `refInterval`), and a counter
`leakedIntervals` for interval timers that are still scheduled but no longer
referenced by `intervalRef` (they can never be cleared).  A `tick` advances
`recordingTime` by one for every live interval timer, i.e. it models one
second of wall-clock time acting on all `setInterval` callbacks at once.
-/

/-- A JavaScript `Blob`: byte content plus mime type. -/
structure JSBlob where
  data : List Nat
  type : JStr
deriving DecidableEq

/-- State of the `useMediaRecorder` hook. -/
structure Session where
  isRecording : Bool
  recordingTime : Nat
  error : Option JStr
  hasRecorder : Bool
  recorderPaused : Bool
  tracksLive : Bool
  chunks : List JSBlob
  refInterval : Bool
  leakedIntervals : Nat
deriving DecidableEq

/-- The hook's initial state. -/
def initialSession : Session :=
  { isRecording := false, recordingTime := 0, error := none, hasRecorder := false,
    recorderPaused := false, tracksLive := false, chunks := [], refInterval := false,
    leakedIntervals := 0 }

/-- Function `startRecording`, success path: clear the error, create a fresh recorder
(over-writing the ref), reset the chunk buffer, start, set `isRecording`,
zero the timer, and install a new interval timer (over-writing `intervalRef`,
which leaks any interval it still referenced). -/
def startRecordingOk (s : Session) : Session :=
  { isRecording := true, recordingTime := 0, error := none, hasRecorder := true,
    recorderPaused := false, tracksLive := true, chunks := [], refInterval := true,
    leakedIntervals := s.leakedIntervals + (if s.refInterval then 1 else 0) }

/-- Function `startRecording`, failure path (`getUserMedia` rejected): only the error
cell changes. -/
def startRecordingFail (s : Session) : Session :=
  { s with
    error := some (("Failed to start recording. Please check microphone permissions.").data) }

/-- The `ondataavailable` handler: push the event's blob onto `chunksRef`
when its size is positive. -/
def deliverChunk (s : Session) (b : JSBlob) : Session :=
  if 0 < b.data.length then { s with chunks := s.chunks ++ [b] } else s

/-- One second of wall-clock time: every live interval callback runs
`setRecordingTime (prev => prev + 1)` once. -/
def tick (s : Session) : Session :=
  { s with
    recordingTime := s.recordingTime + (if s.refInterval then 1 else 0) + s.leakedIntervals }

/-- Function `stopRecording`: when a recorder exists and `isRecording` holds, the
`onstop` handler builds the blob from the accumulated chunks with mime type
`audio/webm` and stops the capture tracks, while the function clears
`isRecording` and the referenced interval; otherwise it resolves `null` and
changes nothing. -/
def stopRecording (s : Session) : Session × Option JSBlob :=
  if s.hasRecorder && s.isRecording then
    ({ s with isRecording := false, refInterval := false, tracksLive := false },
      some { data := (s.chunks.map JSBlob.data).flatten, type := ("audio/webm").data })
  else (s, none)

/-- Function `pauseRecording`: guarded by `mediaRecorderRef.current && isRecording`;
pauses the recorder and clears the referenced interval. -/
def pauseRecording (s : Session) : Session :=
  if s.hasRecorder && s.isRecording then
    { s with recorderPaused := true, refInterval := false }
  else s

/-- Function `resumeRecording`: guarded by `mediaRecorderRef.current && isRecording`;
resumes the recorder and installs a new interval timer, over-writing
`intervalRef` without clearing it (leaking any interval it referenced). -/
def resumeRecording (s : Session) : Session :=
  if s.hasRecorder && s.isRecording then
    { s with
      recorderPaused := false, refInterval := true,
      leakedIntervals := s.leakedIntervals + (if s.refInterval then 1 else 0) }
  else s

theorem foldl_deliverChunk (bs : List JSBlob) (h : ∀ b ∈ bs, b.data ≠ []) (s : Session) :
    bs.foldl deliverChunk s = { s with chunks := s.chunks ++ bs } := by
  induction bs generalizing s with
  | nil => simp
  | cons b bs ih =>
    have hb : 0 < b.data.length :=
      List.length_pos.mpr (h b (List.mem_cons_self b bs))
    have hrest : ∀ x ∈ bs, x.data ≠ [] := fun x hx => h x (List.mem_cons_of_mem b hx)
    rw [List.foldl_cons, deliverChunk, if_pos hb, ih hrest]
    simp

/-- C1: with any sequence of non-empty chunk-delivery events between
`startRecording` and `stopRecording`, the blob resolved by `stopRecording`
is the concatenation of the delivered chunks in arrival order, tagged
`audio/webm`, and its size is the sum of the chunk sizes. -/
theorem stopRecording_concats_chunks (s0 : Session) (bs : List JSBlob)
    (h : ∀ b ∈ bs, b.data ≠ []) :
    (stopRecording (bs.foldl deliverChunk (startRecordingOk s0))).2
        = some { data := (bs.map JSBlob.data).flatten, type := ("audio/webm").data } ∧
    ((bs.map JSBlob.data).flatten).length = (bs.map (fun b => b.data.length)).sum := by
  constructor
  · rw [foldl_deliverChunk bs h (startRecordingOk s0)]
    rw [stopRecording]
    simp [startRecordingOk]
  · rw [List.length_flatten, List.map_map]
    rfl

set_option maxRecDepth 40000 in
/-- Closed instance of `stopRecording_concats_chunks`: three chunks of sizes
1000, 2000 and 1500 bytes yield a 4500-byte `audio/webm` blob. -/
theorem stopRecording_concats_chunks_witness :
    (∀ b ∈ [JSBlob.mk (List.replicate 1000 0) [], JSBlob.mk (List.replicate 2000 0) [],
        JSBlob.mk (List.replicate 1500 0) []], b.data ≠ []) ∧
    ((stopRecording ([JSBlob.mk (List.replicate 1000 0) [],
        JSBlob.mk (List.replicate 2000 0) [], JSBlob.mk (List.replicate 1500 0) []].foldl
          deliverChunk (startRecordingOk initialSession))).2.map
        (fun b => (b.data.length, b.type)) = some (4500, ("audio/webm").data)) := by
  have hne : ∀ b ∈ [JSBlob.mk (List.replicate 1000 0) [], JSBlob.mk (List.replicate 2000 0) [],
      JSBlob.mk (List.replicate 1500 0) []], b.data ≠ [] := by decide
  have h := stopRecording_concats_chunks initialSession
    [JSBlob.mk (List.replicate 1000 0) [], JSBlob.mk (List.replicate 2000 0) [],
      JSBlob.mk (List.replicate 1500 0) []] hne
  refine ⟨hne, ?_⟩
  rw [h.1]
  show some
      ((([JSBlob.mk (List.replicate 1000 0) [], JSBlob.mk (List.replicate 2000 0) [],
          JSBlob.mk (List.replicate 1500 0) []].map JSBlob.data).flatten).length,
        ("audio/webm").data)
      = some (4500, ("audio/webm").data)
  rw [h.2]
  decide

/-- C9: `stopRecording` called while idle (no recorder, or `isRecording`
false) resolves `null` and leaves the whole session state unchanged. -/
theorem stopRecording_idle_noop (s : Session)
    (h : s.hasRecorder = false ∨ s.isRecording = false) :
    stopRecording s = (s, none) := by
  rw [stopRecording, if_neg]
  rcases h with h | h <;> simp [h]

/-- Closed instance of `stopRecording_idle_noop` at the initial state. -/
theorem stopRecording_idle_noop_witness :
    initialSession.hasRecorder = false ∧
    stopRecording initialSession = (initialSession, none) :=
  ⟨rfl, stopRecording_idle_noop initialSession (Or.inl rfl)⟩

/-- C6 counterexample: in the state reached right after a successful
`startRecording` — a recording, NOT paused state — `resumeRecording` is not a
no-op: its guard only checks `isRecording`, so it installs a second interval
timer while leaking the referenced one, and the next second then advances
`recordingTime` by 2 instead of 1. -/
theorem resumeRecording_while_recording_counterexample :
    ((startRecordingOk initialSession).recorderPaused = false) ∧
    (resumeRecording (startRecordingOk initialSession) ≠ startRecordingOk initialSession) ∧
    ((tick (resumeRecording (startRecordingOk initialSession))).recordingTime = 2) ∧
    ((tick (startRecordingOk initialSession)).recordingTime = 1) := by
  decide

/-- C6 (amended): `pauseRecording` is a no-op while idle and while already
paused, and in the recording state it halts the tick without releasing the
capture tracks; `resumeRecording` is a no-op while idle, and an immediate
`pauseRecording` followed by `resumeRecording` from a normal recording state
restores that state exactly, so subsequent elapsed-time counting is identical
to a run with no pause, with nothing counted during the paused interval —
but `resumeRecording` invoked while actively recording is NOT a no-op (see
the counterexample). -/
theorem pause_resume_spec (s : Session) :
    (s.hasRecorder = false ∨ s.isRecording = false →
      pauseRecording s = s ∧ resumeRecording s = s) ∧
    (s.hasRecorder = true → s.isRecording = true → s.recorderPaused = true →
      s.refInterval = false → pauseRecording s = s) ∧
    (s.hasRecorder = true → s.isRecording = true →
      (pauseRecording s).tracksLive = s.tracksLive ∧
      (pauseRecording s).refInterval = false ∧
      (s.leakedIntervals = 0 → (tick (pauseRecording s)).recordingTime = s.recordingTime)) ∧
    (s.hasRecorder = true → s.isRecording = true → s.recorderPaused = false →
      s.refInterval = true → resumeRecording (pauseRecording s) = s) := by
  refine ⟨?_, ?_, ?_, ?_⟩
  · intro h
    have hg : ¬ (s.hasRecorder && s.isRecording) = true := by
      rcases h with h | h <;> simp [h]
    rw [pauseRecording, if_neg hg, resumeRecording, if_neg hg]
    exact ⟨rfl, rfl⟩
  · intro h1 h2 h3 h4
    have hg : (s.hasRecorder && s.isRecording) = true := by simp [h1, h2]
    rw [pauseRecording, if_pos hg, ← h3, ← h4]
  · intro h1 h2
    have hg : (s.hasRecorder && s.isRecording) = true := by simp [h1, h2]
    rw [pauseRecording, if_pos hg]
    refine ⟨rfl, rfl, ?_⟩
    intro h0
    simp [tick, h0]
  · intro h1 h2 h3 h4
    cases s
    simp_all [pauseRecording, resumeRecording]

/-- Closed instance of `pause_resume_spec` at a normal recording state:
pause keeps the tracks live and halts the tick, and pause-then-resume
restores the state (so later counting matches the no-pause run). -/
theorem pause_resume_spec_witness :
    ((startRecordingOk initialSession).leakedIntervals = 0) ∧
    ((pauseRecording (startRecordingOk initialSession)).tracksLive = true) ∧
    ((tick (pauseRecording (startRecordingOk initialSession))).recordingTime = 0) ∧
    (resumeRecording (pauseRecording (startRecordingOk initialSession))
        = startRecordingOk initialSession) ∧
    (pauseRecording initialSession = initialSession) ∧
    (resumeRecording initialSession = initialSession) := by
  have h := pause_resume_spec (startRecordingOk initialSession)
  have h3 := h.2.2.1 rfl rfl
  have h4 := h.2.2.2 rfl rfl rfl rfl
  have hidle := (pause_resume_spec initialSession).1 (Or.inl rfl)
  exact ⟨rfl, by rw [h3.1]; rfl, by rw [h3.2.2 rfl]; rfl, h4, hidle.1, hidle.2⟩

/-!
## ApiService.processMeeting (src/src/pages/MeetingDetails.tsx)
and RecordingSubmissionModal (src/unnamed/part_004)

`processMeeting` builds one `FormData` and issues one `fetch`.  The network
is a parameter (`FetchOutcome`): either the fetch itself rejects with a
network-level error message, or a response arrives with an `ok` flag and the
optional `message`/`error` field of its JSON body.  A `JSDate` is modelled by
its `toISOString` image, the only view of it the submission path uses.
JSON.stringify on an array of strings is modelled with quote-and-escape on
the quote and backslash characters.
-/

/-- A value stored in a `FormData` field: a string or a blob. -/
inductive FormVal where
  | str (s : JStr)
  | blob (b : JSBlob)
deriving DecidableEq

/-- A `FormData` object: its fields in insertion order. -/
abbrev FormData := List (JStr × FormVal)

/-- Method append of `FormData`. -/
def fdAppend (fd : FormData) (k : JStr) (v : FormVal) : FormData := fd ++ [(k, v)]

/-- The double-quote character, code point 34. -/
def quoteChar : Char := Char.ofNat 34

/-- The backslash character, code point 92. -/
def backslashChar : Char := Char.ofNat 92

/-- Model of JSON string quoting (escapes quote and backslash). -/
def jsonQuote (s : JStr) : JStr :=
  quoteChar ::
    ((s.map (fun c =>
        if c = quoteChar || c = backslashChar then [backslashChar, c] else [c])).flatten
      ++ [quoteChar])

/-- Model of `JSON.stringify` on an array of strings. -/
def jsonStringifyArr (xs : List JStr) : JStr :=
  '[' :: (List.intercalate [','] (xs.map jsonQuote) ++ [']'])

/-- A JavaScript `Date`, modelled by its `toISOString` image. -/
structure JSDate where
  isoString : JStr
deriving DecidableEq

/-- The `CreateMeetingRequest` interface of the api service. -/
structure CreateMeetingRequest where
  title : JStr
  date : JStr
  participants : List JStr
  recordingBlob : JSBlob
deriving DecidableEq

/-- Outcome of the single `fetch` of `processMeeting`: the fetch rejects
with a network-level message, or a response arrives with its `ok` flag and
the `message`/`error` field of its JSON body (`none` when absent or
unparsable). -/
inductive FetchOutcome where
  | netFail (msg : JStr)
  | resp (ok : Bool) (jsonMsg : Option JStr)
deriving DecidableEq

/-- Function `handleApiError`: the thrown `Error` carries the body's `message` (or
`error`) field when present, and a generic message otherwise. -/
def handleApiError (jsonMsg : Option JStr) : JStr :=
  jsonMsg.getD (("An unexpected error occurred").data)

/-- The `FormData` built by `processMeeting`: four appends, in order. -/
def processMeetingFormData (md : CreateMeetingRequest) : FormData :=
  fdAppend
    (fdAppend
      (fdAppend
        (fdAppend [] (("recording").data) (FormVal.blob md.recordingBlob))
        (("title").data) (FormVal.str md.title))
      (("date").data) (FormVal.str md.date))
    (("participants").data) (FormVal.str (jsonStringifyArr md.participants))

/-- Function `processMeeting`: builds the form data, performs exactly one request
(the returned list of issued requests), and either succeeds or throws — the
thrown message is the network-level one if the fetch rejected, and the
`handleApiError` message if the response was not ok. -/
def processMeeting (md : CreateMeetingRequest) (o : FetchOutcome) :
    List FormData × Except JStr Unit :=
  ([processMeetingFormData md],
    match o with
    | FetchOutcome.netFail m => Except.error m
    | FetchOutcome.resp ok jsonMsg =>
      if ok then Except.ok () else Except.error (handleApiError jsonMsg))

/-- State of the `RecordingSubmissionModal` form. -/
structure ModalState where
  emails : List JStr
  meetingTitle : JStr
  meetingDate : JSDate
  isSubmitting : Bool
deriving DecidableEq

/-- The user-visible outcome of a `handleSubmit` run: the
missing-information toast, the success toast (with form reset, close and
navigation), or the submission-failed toast carrying the error's message. -/
inductive SubmitOutcome where
  | validationError
  | success
  | failureToast (msg : JStr)
deriving DecidableEq

/-- Function `handleSubmit` from the modal: the validation guard
`!recordingBlob || emails.length === 0 || !meetingTitle` toasts and returns
without touching anything; otherwise `isSubmitting` is set, the meeting data
is built and handed to `processMeeting`, and in `finally` `isSubmitting` is
cleared.  On success the form is reset (`now` is the `new Date()` used for
the reset); on a thrown error the failure toast shows the error's message.
The third component counts the network requests issued. -/
def handleSubmit (s : ModalState) (recordingBlob : Option JSBlob) (now : JSDate)
    (o : FetchOutcome) : ModalState × SubmitOutcome × Nat :=
  if recordingBlob.isNone || s.emails.isEmpty || s.meetingTitle.isEmpty then
    (s, SubmitOutcome.validationError, 0)
  else
    let b := recordingBlob.getD { data := [], type := [] }
    let md : CreateMeetingRequest :=
      { title := s.meetingTitle, date := s.meetingDate.isoString,
        participants := s.emails, recordingBlob := b }
    let pr := processMeeting md o
    match pr.2 with
    | Except.ok _ =>
      ({ emails := [], meetingTitle := [], meetingDate := now, isSubmitting := false },
        SubmitOutcome.success, pr.1.length)
    | Except.error m =>
      ({ s with isSubmitting := false }, SubmitOutcome.failureToast m, pr.1.length)

/-- Function `canSubmit` from the modal:
`emails.length > 0 && meetingTitle.trim() && !isSubmitting`. -/
def canSubmit (s : ModalState) : Bool :=
  decide (0 < s.emails.length) && !(jsTrim s.meetingTitle).isEmpty && !s.isSubmitting

/-- Submission as dispatchable through the form: the submit button is
rendered with `disabled={!canSubmit}`, and with the sole submit button
disabled the form cannot be submitted (clicks and implicit submission are
both blocked), so `handleSubmit` runs only when `canSubmit` holds.  The
second component is `none` when the dispatch was rejected. -/
def submitViaForm (s : ModalState) (recordingBlob : Option JSBlob) (now : JSDate)
    (o : FetchOutcome) : ModalState × Option SubmitOutcome × Nat :=
  if canSubmit s then
    let r := handleSubmit s recordingBlob now o
    (r.1, some r.2.1, r.2.2)
  else (s, none, 0)

/-- A concrete request used by the closed statements below. -/
def exampleRequest : CreateMeetingRequest :=
  { title := ("Weekly Team Sync").data, date := ("2024-01-15T10:00:00Z").data,
    participants := [("john@company.com").data],
    recordingBlob := { data := [1, 2, 3], type := ("audio/webm").data } }

/-- C2 counterexample: the multipart request built by `processMeeting` for a
concrete valid submission has no `duration` field — its fields are exactly
`recording`, `title`, `date`, `participants`. -/
theorem processMeeting_no_duration_counterexample :
    ((processMeetingFormData exampleRequest).map Prod.fst
      = [("recording").data, ("title").data, ("date").data, ("participants").data]) ∧
    (("duration").data ∉ (processMeetingFormData exampleRequest).map Prod.fst) := by
  decide

/-- C2 (amended): every valid submission is encoded as exactly one multipart
request whose fields, in insertion order, are `recording` (the binary blob),
`title`, `date` (the ISO string supplied by the caller) and `participants`
(JSON-encoded array of the email strings); no `duration` field is sent. -/
theorem processMeeting_request_fields (md : CreateMeetingRequest) (o : FetchOutcome) :
    ((processMeeting md o).1.length = 1) ∧
    ((processMeetingFormData md).map Prod.fst
      = [("recording").data, ("title").data, ("date").data, ("participants").data]) ∧
    ((processMeetingFormData md).lookup (("recording").data)
      = some (FormVal.blob md.recordingBlob)) ∧
    ((processMeetingFormData md).lookup (("title").data) = some (FormVal.str md.title)) ∧
    ((processMeetingFormData md).lookup (("date").data) = some (FormVal.str md.date)) ∧
    ((processMeetingFormData md).lookup (("participants").data)
      = some (FormVal.str (jsonStringifyArr md.participants))) ∧
    (("duration").data ∉ (processMeetingFormData md).map Prod.fst) := by
  refine ⟨rfl, rfl, rfl, rfl, rfl, rfl, ?_⟩
  have hf : (processMeetingFormData md).map Prod.fst
      = [("recording").data, ("title").data, ("date").data, ("participants").data] := rfl
  rw [hf]
  decide

/-- C3: when the recording blob is null, the participant list empty, or the
title empty, `handleSubmit` signals the validation toast, performs zero
network calls, and leaves the draft state unchanged. -/
theorem handleSubmit_validation (s : ModalState) (recordingBlob : Option JSBlob)
    (now : JSDate) (o : FetchOutcome)
    (h : recordingBlob = none ∨ s.emails = [] ∨ s.meetingTitle = []) :
    handleSubmit s recordingBlob now o = (s, SubmitOutcome.validationError, 0) := by
  have hg : (recordingBlob.isNone || s.emails.isEmpty || s.meetingTitle.isEmpty) = true := by
    rcases h with h | h | h <;> simp [h]
  unfold handleSubmit
  rw [if_pos hg]

/-- A concrete valid draft used by the closed statements below. -/
def exampleDraft : ModalState :=
  { emails := [("a@b.co").data], meetingTitle := ("Standup").data,
    meetingDate := { isoString := ("2024-01-15T10:00:00.000Z").data },
    isSubmitting := false }

/-- A concrete recording blob used by the closed statements below. -/
def exampleBlob : JSBlob := { data := [7, 7, 7], type := ("audio/webm").data }

/-- A concrete `new Date()` value used by the closed statements below. -/
def exampleNow : JSDate := { isoString := ("2024-02-01T00:00:00.000Z").data }

/-- Closed instance of `handleSubmit_validation`: with an empty participant
list the submission is rejected with the validation toast, no request is
issued and the state is untouched. -/
theorem handleSubmit_validation_witness :
    ({ exampleDraft with emails := [] } : ModalState).emails = [] ∧
    handleSubmit { exampleDraft with emails := [] } (some exampleBlob) exampleNow
        (FetchOutcome.resp true none)
      = ({ exampleDraft with emails := [] }, SubmitOutcome.validationError, 0) :=
  ⟨rfl, handleSubmit_validation { exampleDraft with emails := [] } (some exampleBlob)
    exampleNow (FetchOutcome.resp true none) (Or.inr (Or.inl rfl))⟩

/-- C4: on a valid draft, when the transport fails — the fetch rejects at
network level, or the response has a non-success status — `handleSubmit`
returns to the editable state (`isSubmitting` false) with the title,
participant list and date preserved unchanged, surfaces the failure toast
whose reason is the network-level message in the first case and the
server-supplied rejection message in the second, and issues exactly one
request (no automatic retry). -/
theorem handleSubmit_transport_failure (s : ModalState) (b : JSBlob) (now : JSDate)
    (he : s.emails ≠ []) (ht : s.meetingTitle ≠ []) :
    (∀ m, handleSubmit s (some b) now (FetchOutcome.netFail m)
        = ({ s with isSubmitting := false }, SubmitOutcome.failureToast m, 1)) ∧
    (∀ jm, handleSubmit s (some b) now (FetchOutcome.resp false jm)
        = ({ s with isSubmitting := false },
            SubmitOutcome.failureToast (handleApiError jm), 1)) := by
  constructor <;> intro x <;>
    · unfold handleSubmit
      rw [if_neg (by simp [he, ht])]
      rfl

/-- Closed instance of `handleSubmit_transport_failure` on the concrete
draft: network failure and server rejection each preserve the fields, clear
`isSubmitting`, surface their own message, and issue one request. -/
theorem handleSubmit_transport_failure_witness :
    exampleDraft.emails ≠ [] ∧ exampleDraft.meetingTitle ≠ [] ∧
    (handleSubmit exampleDraft (some exampleBlob) exampleNow
        (FetchOutcome.netFail (("Failed to fetch").data))
      = ({ exampleDraft with isSubmitting := false },
          SubmitOutcome.failureToast (("Failed to fetch").data), 1)) ∧
    (handleSubmit exampleDraft (some exampleBlob) exampleNow
        (FetchOutcome.resp false (some (("Invalid recording format").data)))
      = ({ exampleDraft with isSubmitting := false },
          SubmitOutcome.failureToast (("Invalid recording format").data), 1)) := by
  have he : exampleDraft.emails ≠ [] := by decide
  have ht : exampleDraft.meetingTitle ≠ [] := by decide
  have h := handleSubmit_transport_failure exampleDraft exampleBlob exampleNow he ht
  exact ⟨he, ht, h.1 (("Failed to fetch").data),
    h.2 (some (("Invalid recording format").data))⟩

/-- C5: while a submission is in flight (`isSubmitting`), a second submit
dispatch is rejected outright — `canSubmit` is false, so the disabled submit
button blocks the form dispatch: no network call is made, nothing is queued,
and the state (hence the in-flight request) is untouched. -/
theorem submit_rejected_while_submitting (s : ModalState) (recordingBlob : Option JSBlob)
    (now : JSDate) (o : FetchOutcome) (h : s.isSubmitting = true) :
    canSubmit s = false ∧ submitViaForm s recordingBlob now o = (s, none, 0) := by
  have hc : canSubmit s = false := by simp [canSubmit, h]
  refine ⟨hc, ?_⟩
  unfold submitViaForm
  rw [if_neg (by simp [hc])]

/-- Closed instance of `submit_rejected_while_submitting` on the concrete
draft marked as submitting. -/
theorem submit_rejected_while_submitting_witness :
    ({ exampleDraft with isSubmitting := true } : ModalState).isSubmitting = true ∧
    submitViaForm { exampleDraft with isSubmitting := true } (some exampleBlob)
        exampleNow (FetchOutcome.resp true none)
      = ({ exampleDraft with isSubmitting := true }, none, 0) :=
  ⟨rfl, (submit_rejected_while_submitting { exampleDraft with isSubmitting := true }
    (some exampleBlob) exampleNow (FetchOutcome.resp true none) rfl).2⟩
